import Mathlib

/-!
Shallow embedding of the SSE (Server-Sent Events) client parser from
`src/pkg/stream.go`.  Bytes are modelled as `Nat` (values below 256), byte
slices as `List Nat`, and the `Stream` record's mutable buffers as an explicit
`StreamState` record threaded through the functions.  A Go runtime panic is
modelled as `Option.none`.
-/

namespace SSE

/-- Byte list of an ASCII string literal (each char's code point). -/
def ascii (s : String) : List Nat := s.data.map Char.toNat

/-- `var utf8BOM = []byte{0xfe, 0xff}` from stream.go line 18. -/
def utf8BOM : List Nat := [254, 255]

/-- `type Event struct { Type string; Data string }`, with the strings kept as
their byte contents. -/
structure Event where
  type : List Nat
  data : List Nat
deriving DecidableEq

/-- The mutable parsing state of `Stream`: `reconnectionTime int` and the three
`bytes.Buffer` fields `data`, `eventType`, `lastEventID`. -/
structure StreamState where
  reconnectionTime : Int
  data : List Nat
  eventType : List Nat
  lastEventID : List Nat
deriving DecidableEq

/-- The zero-value state a fresh `Stream` starts with (`New` and the tests
construct the buffers empty and leave `reconnectionTime` at Go's zero value). -/
def initState : StreamState := ⟨0, [], [], []⟩

/-- `splitLines(data []byte, atEOF bool) (int, []byte, error)` from stream.go
lines 96-114 (the `atEOF` argument is ignored by the Go code).  Returns
`some (advance, token)` when a terminator is found in `data`, `none` when the
scanner must wait for more input (which at end of input drops the remainder).
Note the Go code returns `data[:i+1]` in the CR-LF case, so the token keeps
the CR byte. -/
def splitLines : List Nat → Option (Nat × List Nat)
  | [] => none
  | b :: rest =>
    if b = 13 then
      match rest with
      | [] => none
      | b1 :: _ => if b1 = 10 then some (2, [13]) else some (1, [])
    else if b = 10 then
      some (1, [])
    else
      match splitLines rest with
      | some (adv, tok) => some (adv + 1, b :: tok)
      | none => none

/-- Repeatedly apply `splitLines` the way `bufio.Scanner` does, collecting the
tokens; when `splitLines` reports no full terminator the remaining bytes are
dropped (end of input).  Fuel-indexed; each step consumes at least one byte, so
`length + 1` fuel is always enough. -/
def frameLinesAux : Nat → List Nat → List (List Nat)
  | 0, _ => []
  | fuel + 1, data =>
    match splitLines data with
    | some (adv, tok) => tok :: frameLinesAux fuel (data.drop adv)
    | none => []

/-- The full sequence of lines the scanner produces from a byte stream. -/
def frameLines (data : List Nat) : List (List Nat) :=
  frameLinesAux (data.length + 1) data

/-- UTF-8 continuation byte (`0x80..0xBF`). -/
def isCont (b : Nat) : Bool :=
  if 128 ≤ b ∧ b ≤ 191 then true else false

/-- Longest prefix of the byte list that is a sequence of complete well-formed
UTF-8 runes, per Go's `utf8.DecodeRune` accept ranges (no overlong encodings,
no surrogates, max U+10FFFF).  `encoding.UTF8Validator` passes exactly this
prefix through `transform.NewReader` before reporting `ErrInvalidUTF8`. -/
def utf8ValidInit : List Nat → List Nat
  | [] => []
  | b0 :: rest =>
    if b0 < 128 then
      b0 :: utf8ValidInit rest
    else if 194 ≤ b0 ∧ b0 ≤ 223 then
      match rest with
      | b1 :: rest2 =>
        if isCont b1 then b0 :: b1 :: utf8ValidInit rest2 else []
      | [] => []
    else if b0 = 224 then
      match rest with
      | b1 :: b2 :: rest3 =>
        if (160 ≤ b1 ∧ b1 ≤ 191) ∧ isCont b2 then
          b0 :: b1 :: b2 :: utf8ValidInit rest3
        else []
      | _ => []
    else if 225 ≤ b0 ∧ b0 ≤ 236 then
      match rest with
      | b1 :: b2 :: rest3 =>
        if isCont b1 ∧ isCont b2 then b0 :: b1 :: b2 :: utf8ValidInit rest3
        else []
      | _ => []
    else if b0 = 237 then
      match rest with
      | b1 :: b2 :: rest3 =>
        if (128 ≤ b1 ∧ b1 ≤ 159) ∧ isCont b2 then
          b0 :: b1 :: b2 :: utf8ValidInit rest3
        else []
      | _ => []
    else if 238 ≤ b0 ∧ b0 ≤ 239 then
      match rest with
      | b1 :: b2 :: rest3 =>
        if isCont b1 ∧ isCont b2 then b0 :: b1 :: b2 :: utf8ValidInit rest3
        else []
      | _ => []
    else if b0 = 240 then
      match rest with
      | b1 :: b2 :: b3 :: rest4 =>
        if (144 ≤ b1 ∧ b1 ≤ 191) ∧ isCont b2 ∧ isCont b3 then
          b0 :: b1 :: b2 :: b3 :: utf8ValidInit rest4
        else []
      | _ => []
    else if 241 ≤ b0 ∧ b0 ≤ 243 then
      match rest with
      | b1 :: b2 :: b3 :: rest4 =>
        if isCont b1 ∧ isCont b2 ∧ isCont b3 then
          b0 :: b1 :: b2 :: b3 :: utf8ValidInit rest4
        else []
      | _ => []
    else if b0 = 244 then
      match rest with
      | b1 :: b2 :: b3 :: rest4 =>
        if (128 ≤ b1 ∧ b1 ≤ 143) ∧ isCont b2 ∧ isCont b3 then
          b0 :: b1 :: b2 :: b3 :: utf8ValidInit rest4
        else []
      | _ => []
    else []

/-- All-ASCII-digit value of a byte string, `none` if empty or a non-digit
occurs (accumulator form, mirroring `strconv`'s digit loop). -/
def digitsValAux : Nat → List Nat → Option Nat
  | acc, [] => some acc
  | acc, b :: rest =>
    if 48 ≤ b ∧ b ≤ 57 then digitsValAux (acc * 10 + (b - 48)) rest else none

/-- `strconv.Atoi` (64-bit `int`): optional single leading `+`/`-` sign,
then one or more ASCII digits, base 10, value within `int64` range;
anything else (or out of range) is an error, modelled as `none`. -/
def atoi (v : List Nat) : Option Int :=
  match v with
  | [] => none
  | b :: rest =>
    if b = 43 then
      match rest with
      | [] => none
      | _ =>
        match digitsValAux 0 rest with
        | some n => if n ≤ 9223372036854775807 then some (n : Int) else none
        | none => none
    else if b = 45 then
      match rest with
      | [] => none
      | _ =>
        match digitsValAux 0 rest with
        | some n => if n ≤ 9223372036854775808 then some (-(n : Int)) else none
        | none => none
    else
      match digitsValAux 0 v with
      | some n => if n ≤ 9223372036854775807 then some (n : Int) else none
      | none => none

/-- `func (s *Stream) process(name, value []byte)` from stream.go lines
178-212: per-field state update keyed on exact field-name match. -/
def process (s : StreamState) (name value : List Nat) : StreamState :=
  if name = ascii "event" then
    { s with eventType := value }
  else if name = ascii "data" then
    { s with data := s.data ++ value ++ [10] }
  else if name = ascii "id" then
    { s with lastEventID := value }
  else if name = ascii "retry" then
    match atoi value with
    | some n => if 0 ≤ n then { s with reconnectionTime := n } else s
    | none => s
  else
    s

/-- `func (s Stream) dispatch()` from stream.go lines 215-253: returns the
updated state plus the event sent on the channel, if any. -/
def dispatch (s : StreamState) : StreamState × Option Event :=
  if s.data = [] then
    ({ s with data := [], eventType := [] }, none)
  else
    let d := if s.data.getLast? = some 10 then s.data.dropLast else s.data
    let t := if s.eventType = [] then ascii "message" else s.eventType
    ({ s with data := [], eventType := [] }, some ⟨t, d⟩)

/-- Byte content split at the first colon: `bytes.SplitN(line, []byte{':'}, 2)`
giving `some (before, after)` when a colon is present, `none` otherwise. -/
def splitAtColon : List Nat → Option (List Nat × List Nat)
  | [] => none
  | b :: rest =>
    if b = 58 then some ([], rest)
    else
      match splitAtColon rest with
      | some (pre, post) => some (b :: pre, post)
      | none => none

/-- `func (s *Stream) interpret(line []byte)` from stream.go lines 146-175.
`none` models the Go panic: when a colon is found and the value is empty,
the code evaluates `value[0]` on a zero-length slice (index out of range). -/
def interpret (s : StreamState) (line : List Nat) :
    Option (StreamState × Option Event) :=
  if line = [] then
    some (dispatch s)
  else if line.head? = some 58 then
    some (s, none)
  else
    match splitAtColon line with
    | some (f, v) =>
      match v with
      | [] => none
      | c :: v2 => some (process s f (if c = 32 then v2 else c :: v2), none)
    | none => some (process s line [], none)

/-- Interpret a list of framed lines in order, collecting emitted events;
`none` if any line makes `interpret` panic. -/
def runLines : StreamState → List (List Nat) → Option (StreamState × List Event)
  | s, [] => some (s, [])
  | s, line :: rest =>
    match interpret s line with
    | none => none
    | some (s2, ev) =>
      match runLines s2 rest with
      | none => none
      | some (s3, evs) => some (s3, ev.toList ++ evs)

/-- How a parsing session can end: `encodingError` is `ErrInvalidUTF8` from the
UTF-8 validator reaching `scanner.Err()`; `eofBeforeBOMCheck` is the error
`bufio.Reader.Peek(2)` returns when the stream holds fewer than two bytes
(`io.EOF`), which `parse` returns before any scanning happens. -/
inductive ParseErr where
  | encodingError
  | eofBeforeBOMCheck
deriving DecidableEq

/-- The scanning loop of `parse` after the BOM step: validate UTF-8 through
`transform.NewReader`, frame lines with `splitLines`, `interpret` each, and
report `ErrInvalidUTF8` via `scanner.Err()` when the input was not all valid.
Complete lines inside the valid prefix are still processed before the error
stops the scan.  `none` models a panic in `interpret`. -/
def scanModel (s : StreamState) (src : List Nat) :
    Option (StreamState × List Event × Option ParseErr) :=
  match runLines s (frameLines (utf8ValidInit src)) with
  | none => none
  | some (s2, evs) =>
    some (s2, evs,
      if utf8ValidInit src = src then none else some ParseErr.encodingError)

/-- `func (s *Stream) parse(reader io.ReadCloser) error` from stream.go lines
116-144, on a pure byte source: the result is the final state, the events sent
on the (then closed) channel, and the error value `parse` returns (`none` for
a clean `nil` return).  The whole result is `none` when the session panics. -/
def parse (src : List Nat) : Option (StreamState × List Event × Option ParseErr) :=
  if src.length < 2 then
    some (initState, [], some ParseErr.eofBeforeBOMCheck)
  else if src.take 2 = utf8BOM then
    scanModel initState (src.drop 2)
  else
    scanModel initState src

/-- What a caller of the public interface (`New` + `Stream.Events`) can
observe of a session: only the channel contents.  `New` runs `go s.parse(r)`
and discards `parse`'s returned error, and `Stream` has no error accessor. -/
def newEvents (src : List Nat) : Option (List Event) :=
  (parse src).map (fun r => r.2.1)

/-! ### Helper lemmas -/

/-- `process` on a `data` field appends `value ++ [LF]` to the data buffer. -/
theorem process_data_eq (s : StreamState) (v : List Nat) :
    process s (ascii "data") v = { s with data := s.data ++ v ++ [10] } := rfl

/-- Folding `process` over a list of `data` field values accumulates each
value followed by an LF. -/
theorem foldl_process_data (vs : List (List Nat)) (s : StreamState) :
    (vs.foldl (fun st v => process st (ascii "data") v) s).data
      = s.data ++ (vs.map (fun v => v ++ [10])).flatten := by
  induction vs generalizing s with
  | nil => simp
  | cons v t ih =>
    simp only [List.foldl_cons, List.map_cons, List.flatten_cons]
    rw [ih, process_data_eq]
    simp [List.append_assoc]

theorem intercalate_cons2 (sep v w : List Nat) (u : List (List Nat)) :
    List.intercalate sep (v :: w :: u) = v ++ sep ++ List.intercalate sep (w :: u) := by
  simp [List.intercalate, List.intersperse]

/-- Joining `value ++ [LF]` blocks equals the LF-intercalation plus one
trailing LF, for a nonempty list of values. -/
theorem join_map_lf (vs : List (List Nat)) (h : vs ≠ []) :
    (vs.map (fun v => v ++ [10])).flatten = List.intercalate [10] vs ++ [10] := by
  induction vs with
  | nil => exact absurd rfl h
  | cons v t ih =>
    cases t with
    | nil => simp [List.intercalate]
    | cons w u =>
      have ih2 := ih (by simp)
      simp only [List.map_cons, List.flatten_cons] at ih2 ⊢
      rw [ih2, intercalate_cons2]
      simp [List.append_assoc]

/-! ### Claim theorems -/

/-- Claim C1: the claim says classification and colon splitting are total over
any line, including a line whose first colon is its final byte.  The code is
not: on the line `data:` the split yields an empty value and `interpret`
evaluates `value[0]` on a zero-length slice, a runtime panic (index out of
range), so the whole session crashes on input `data:\n`. -/
theorem C1_colon_as_final_byte_panics :
    interpret initState (ascii "data:") = none ∧
    parse (ascii "data:\n") = none := by decide

/-- Claim C2: the claim says a CRLF-terminated line's content excludes both the
CR and the LF.  The code's `splitLines` returns `data[:i+1]` in the CRLF case,
so the token for `a\r\n` is `a\r` — the CR byte (13) stays in the line
content — while lone-LF and lone-CR terminators are excluded correctly. -/
theorem C2_crlf_keeps_cr_in_token :
    splitLines (ascii "a\r\n") = some (3, [97, 13]) ∧
    (13 : Nat) ∈ [97, 13] ∧
    frameLines (ascii "a\r\nb\nc\rd\n") = [[97, 13], [98], [99], [100]] := by
  decide

/-- Claim C3 (counterexample): the input `data\ndata\n\n` makes the session
emit one event whose data is exactly one LF — an emitted event whose data
ends with an LF character, contradicting the claim. -/
theorem C3_counterexample :
    parse (ascii "data\ndata\n\n")
      = some (initState, [⟨ascii "message", [10]⟩], none) ∧
    (⟨ascii "message", [10]⟩ : Event).data.getLast? = some 10 := by decide

/-- Claim C3 (amended): dispatch removes exactly one trailing LF from the
data-buffer snapshot before constructing the event; the result may still end
with LF. -/
theorem C3_dispatch_strips_one_lf (s : StreamState) (h : s.data ≠ []) :
    ((dispatch s).2).map Event.data
      = some (if s.data.getLast? = some 10 then s.data.dropLast else s.data) := by
  unfold dispatch
  rw [if_neg h]
  rfl

theorem C3_witness :
    ({ initState with data := [10, 10] } : StreamState).data ≠ [] ∧
    ((dispatch { initState with data := [10, 10] }).2).map Event.data
      = some [10] :=
  ⟨by decide,
   (C3_dispatch_strips_one_lf { initState with data := [10, 10] }
      (by decide)).trans (by decide)⟩

/-- Claim C4 (counterexample): on the single invalid byte `0x80` the session
ends with the error returned by the two-byte BOM peek (io.EOF), not with an
encoding-validation error, though indeed zero events are emitted. -/
theorem C4_counterexample :
    parse [128] = some (initState, [], some ParseErr.eofBeforeBOMCheck) ∧
    some ParseErr.eofBeforeBOMCheck ≠ some ParseErr.encodingError := by decide

/-- Claim C4 (amended): a single-byte input that is not a valid encoding
sequence makes the session end with the `Peek(2)` end-of-stream error and zero
events; the byte never reaches the UTF-8 validator. -/
theorem C4_single_byte_errors_at_peek (b : Nat) (_h : 128 ≤ b) :
    parse [b] = some (initState, [], some ParseErr.eofBeforeBOMCheck) := rfl

theorem C4_witness :
    128 ≤ 128 ∧
    parse [128] = some (initState, [], some ParseErr.eofBeforeBOMCheck) :=
  ⟨by decide, C4_single_byte_errors_at_peek 128 (by decide)⟩

/-- Claim C5 (counterexample): a session that ends with an encoding error and
a session that completes cleanly give a caller of the public interface the
same observation — `New` discards `parse`'s returned error and `Stream` has no
error accessor, so the two ends are indistinguishable through the API. -/
theorem C5_counterexample :
    parse [128, 128] = some (initState, [], some ParseErr.encodingError) ∧
    parse [10, 10] = some (initState, [], none) ∧
    newEvents [128, 128] = newEvents [10, 10] := by decide

/-- Claim C5 (amended): on invalid input `parse` does close the output and
return the encoding error to its direct caller, and the public observation
(`newEvents`) is exactly the emitted events with the error dropped. -/
theorem C5_parse_error_not_public (src : List Nat) (st : StreamState)
    (evs : List Event) (e : Option ParseErr)
    (h2 : ¬ src.length < 2) (hb : src.take 2 ≠ utf8BOM)
    (hv : utf8ValidInit src ≠ src)
    (hp : parse src = some (st, evs, e)) :
    e = some ParseErr.encodingError ∧ newEvents src = some evs := by
  have he : newEvents src = some evs := by simp [newEvents, hp]
  refine ⟨?_, he⟩
  unfold parse at hp
  rw [if_neg h2, if_neg hb] at hp
  unfold scanModel at hp
  cases hr : runLines initState (frameLines (utf8ValidInit src)) with
  | none =>
    rw [hr] at hp
    exact absurd hp (by simp)
  | some q =>
    obtain ⟨s2, evs2⟩ := q
    rw [hr, if_neg hv] at hp
    simp only [Option.some.injEq, Prod.mk.injEq] at hp
    exact hp.2.2.symm

theorem C5_witness :
    some ParseErr.encodingError = some ParseErr.encodingError ∧
    newEvents [128, 128] = some [] :=
  C5_parse_error_not_public [128, 128] initState [] (some ParseErr.encodingError)
    (by decide) (by decide) (by decide) (by decide)

/-- Claim C6: a leading `utf8BOM` (the code's two bytes `0xFE 0xFF`) is
discarded exactly once before scanning, the rest of the stream is processed
with no further BOM handling; with no BOM (and at least the two peekable
bytes) the scan starts at byte 0; and `BOM ++ "data: foo\n\n"` yields exactly
one event with type `message` and data `foo`. -/
theorem C6_bom_discarded_once (rest src : List Nat)
    (hl : 2 ≤ src.length) (hb : src.take 2 ≠ utf8BOM) :
    parse (utf8BOM ++ rest) = scanModel initState rest ∧
    parse src = scanModel initState src ∧
    parse (utf8BOM ++ ascii "data: foo\n\n")
      = some (initState, [⟨ascii "message", ascii "foo"⟩], none) := by
  refine ⟨?_, ?_, by decide⟩
  · show parse (254 :: 255 :: rest) = scanModel initState rest
    unfold parse
    rw [if_neg (by simp),
      if_pos (show List.take 2 (254 :: 255 :: rest) = utf8BOM from rfl),
      show List.drop 2 (254 :: 255 :: rest) = rest from rfl]
  · unfold parse
    rw [if_neg (by omega), if_neg hb]

theorem C6_witness :
    2 ≤ ([10, 10] : List Nat).length ∧ ([10, 10] : List Nat).take 2 ≠ utf8BOM ∧
    (parse (utf8BOM ++ [10, 10]) = scanModel initState [10, 10] ∧
     parse [10, 10] = scanModel initState [10, 10] ∧
     parse (utf8BOM ++ ascii "data: foo\n\n")
       = some (initState, [⟨ascii "message", ascii "foo"⟩], none)) :=
  ⟨by decide, by decide, C6_bom_discarded_once [10, 10] [10, 10] (by decide) (by decide)⟩

/-- Claim C7: the input `data\n\ndata\ndata\n\ndata:` produces exactly the two
events `{message, ""}` and `{message, "\n"}` and a clean end: the trailing
`data:` has no terminator, so it is never framed as a line and the final
data buffer is never flushed (the final state equals the reset state). -/
theorem C7_no_flush_at_eof :
    parse (ascii "data\n\ndata\ndata\n\ndata:")
      = some (initState,
          [⟨ascii "message", []⟩, ⟨ascii "message", [10]⟩], none) := by decide

/-- Claim C8: `lastEventID` is changed only by an `id` field: `process` on any
other field name preserves it, `dispatch` preserves it in both its branches,
and `process` on `id` sets it to the value — including the empty value. -/
theorem C8_lastEventID_only_id :
    (∀ (s : StreamState) (name value : List Nat), name ≠ ascii "id" →
        (process s name value).lastEventID = s.lastEventID) ∧
    (∀ s : StreamState, (dispatch s).1.lastEventID = s.lastEventID) ∧
    (∀ (s : StreamState) (value : List Nat),
        (process s (ascii "id") value).lastEventID = value) := by
  refine ⟨?_, ?_, fun s value => rfl⟩
  · intro s name value h
    by_cases h1 : name = ascii "event"
    · subst h1; rfl
    by_cases h2 : name = ascii "data"
    · subst h2; rfl
    by_cases h3 : name = ascii "id"
    · exact absurd h3 h
    by_cases h4 : name = ascii "retry"
    · subst h4
      show (match atoi value with
            | some n => if 0 ≤ n then { s with reconnectionTime := n } else s
            | none => s).lastEventID = s.lastEventID
      cases atoi value with
      | none => rfl
      | some n =>
        dsimp only
        split_ifs <;> rfl
    · unfold process
      rw [if_neg h1, if_neg h2, if_neg h3, if_neg h4]
  · intro s
    unfold dispatch
    split <;> rfl

theorem C8_witness :
    ascii "data" ≠ ascii "id" ∧
    (process initState (ascii "data") (ascii "x")).lastEventID
      = initState.lastEventID ∧
    (dispatch initState).1.lastEventID = initState.lastEventID ∧
    (process initState (ascii "id") []).lastEventID = [] :=
  ⟨by decide,
   C8_lastEventID_only_id.1 initState (ascii "data") (ascii "x") (by decide),
   C8_lastEventID_only_id.2.1 initState,
   C8_lastEventID_only_id.2.2 initState []⟩

/-- Claim C9: starting from an empty data buffer, any nonempty run of `data`
field values followed by a dispatch emits an event whose data is the values
joined by single LFs in order; in particular the stock-quote input emits
exactly one event `{message, "YHOO\n+2\n10"}`. -/
theorem C9_data_joined_with_lf :
    (∀ (vs : List (List Nat)) (s : StreamState), s.data = [] → vs ≠ [] →
        ((dispatch (vs.foldl (fun st v => process st (ascii "data") v) s)).2).map
            Event.data
          = some (List.intercalate [10] vs)) ∧
    parse (ascii "data: YHOO\ndata: +2\ndata: 10\n\n")
      = some (initState, [⟨ascii "message", ascii "YHOO\n+2\n10"⟩], none) := by
  refine ⟨?_, by decide⟩
  intro vs s hd hvs
  have hdata : (vs.foldl (fun st v => process st (ascii "data") v) s).data
      = List.intercalate [10] vs ++ [10] := by
    rw [foldl_process_data, hd, join_map_lf vs hvs]
    simp
  have hne : (vs.foldl (fun st v => process st (ascii "data") v) s).data ≠ [] := by
    rw [hdata]; simp
  rw [C3_dispatch_strips_one_lf _ hne, hdata]
  simp

theorem C9_witness :
    (initState : StreamState).data = [] ∧
    ([ascii "a", ascii "b"] : List (List Nat)) ≠ [] ∧
    ((dispatch ([ascii "a", ascii "b"].foldl
        (fun st v => process st (ascii "data") v) initState)).2).map Event.data
      = some (List.intercalate [10] [ascii "a", ascii "b"]) :=
  ⟨rfl, by decide,
   C9_data_joined_with_lf.1 [ascii "a", ascii "b"] initState rfl (by decide)⟩

/-- Claim C10: `process` on a `retry` field sets `reconnectionTime` to the
parsed value exactly when `atoi` (base-10 parsing with one optional leading
sign, `strconv.Atoi`) accepts the value and the result is non-negative;
otherwise the state is unchanged, and no other buffer is ever touched.
Concretely: `+5` and `007` are accepted, a negative or unparsable value
leaves the field at its old value. -/
theorem C10_retry_field (s : StreamState) (v : List Nat) :
    ((process s (ascii "retry") v).reconnectionTime
        = match atoi v with
          | some n => if 0 ≤ n then n else s.reconnectionTime
          | none => s.reconnectionTime) ∧
    (process s (ascii "retry") v).data = s.data ∧
    (process s (ascii "retry") v).eventType = s.eventType ∧
    (process s (ascii "retry") v).lastEventID = s.lastEventID ∧
    atoi (ascii "+5") = some 5 ∧
    atoi (ascii "007") = some 7 ∧
    (process initState (ascii "retry") (ascii "+5")).reconnectionTime = 5 ∧
    (process initState (ascii "retry") (ascii "007")).reconnectionTime = 7 ∧
    (process initState (ascii "retry") (ascii "-3")).reconnectionTime = 0 ∧
    (process initState (ascii "retry") (ascii "5x")).reconnectionTime = 0 := by
  have hsplit : process s (ascii "retry") v =
      match atoi v with
      | some n => if 0 ≤ n then { s with reconnectionTime := n } else s
      | none => s := rfl
  refine ⟨?_, ?_, ?_, ?_, by decide, by decide, by decide, by decide,
    by decide, by decide⟩ <;>
  · rw [hsplit]
    cases atoi v with
    | none => rfl
    | some n =>
      dsimp only
      split_ifs <;> rfl

end SSE
